import Mathlib

/-!
# ContextFlow: the extraction, aggregation and synthesis pipeline

A shallow embedding of `background.js` and `sidepanel.js`.

* A JavaScript string is the sequence of its UTF-16 code units, `Str := List Nat`.
  `length`, `slice`, `split`, `trim`, `includes`, `startsWith` and regular expressions
  without the `u` flag all work on code units.
* The two regular expressions of the sources are kept as data (`Regex`) and run by a
  greedy, backtracking matcher.
* The browser and the language model are outside the repository: what they return is an
  input of the model (extraction outcomes, session replies), and every call made to them is
  recorded in a trace.
-/

namespace ContextFlow

/-- A JavaScript string: its UTF-16 code units. -/
abbrev Str := List Nat

deriving instance DecidableEq for Except

/-- The code units of a string literal of the sources (all of them are ASCII there). -/
def lit (s : String) : Str := s.toList.map Char.toNat

/-! ## String primitives -/

/-- ECMAScript `WhiteSpace` and `LineTerminator` code points: what `trim` removes and what
`\s` matches. -/
def isWhiteSpace (c : Nat) : Bool :=
  c == 0x09 || c == 0x0A || c == 0x0B || c == 0x0C || c == 0x0D || c == 0x20 ||
  c == 0xA0 || c == 0x1680 || (0x2000 ≤ c && c ≤ 0x200A) ||
  c == 0x2028 || c == 0x2029 || c == 0x202F || c == 0x205F || c == 0x3000 || c == 0xFEFF

/-- What `\d` matches: `0` to `9`. -/
def isDigit (c : Nat) : Bool := 0x30 ≤ c && c ≤ 0x39

/-- `String.prototype.trimStart`. -/
def trimStart (s : Str) : Str := s.dropWhile isWhiteSpace

/-- `String.prototype.trimEnd`. -/
def trimEnd (s : Str) : Str := (s.reverse.dropWhile isWhiteSpace).reverse

/-- `String.prototype.trim`. -/
def trim (s : Str) : Str := trimEnd (trimStart s)

/-- `s.split(sep)` for a separator of one code unit: the pieces between the separators, the
empty ones included; never an empty list. -/
def split (sep : Nat) : Str → List Str
  | [] => [[]]
  | c :: cs =>
    if c = sep then [] :: split sep cs
    else
      match split sep cs with
      | [] => [[c]]
      | l :: ls => (c :: l) :: ls

/-- `s.slice(0, n)`, for `n ≥ 0`. -/
def slice0 (n : Nat) (s : Str) : Str := s.take n

/-- `s.startsWith(p)`. -/
def startsWith (p s : Str) : Bool := p.isPrefixOf s

/-- `s.includes(c)` for a pattern of one code unit. -/
def includes (c : Nat) (s : Str) : Bool := s.contains c

/-- `s.replace(pat, rep)` with a string pattern: only the first occurrence of `pat`,
wherever it is, is replaced. -/
def replaceFirst (pat rep : Str) : Str → Str
  | [] => if pat = [] then rep else []
  | c :: cs =>
    if pat.isPrefixOf (c :: cs) then rep ++ (c :: cs).drop pat.length
    else c :: replaceFirst pat rep cs

/-- `xs.join(sep)`. -/
def join (sep : Str) : List Str → Str
  | [] => []
  | [x] => x
  | x :: y :: rest => x ++ sep ++ join sep (y :: rest)

/-- Decimal digits of a number, as in a template literal. -/
def natToStr (n : Nat) : Str := lit (toString n)

/-! ## Regular expressions

Both regular expressions of the sources are anchored at the start (`^`), have no flags and
are a sequence of character classes, each taken once, `+` or `*`. -/

/-- Quantifier of a regular-expression atom. -/
inductive Quant
  | one
  | plus
  | star
  deriving DecidableEq, Repr

/-- One atom: a character class and its quantifier. -/
structure Atom where
  cls : Nat → Bool
  quant : Quant

/-- A regular expression anchored at the start: a sequence of atoms. -/
abbrev Regex := List Atom

/-- Greedy `cls*` followed by the rest of the expression `k`: the longest run first, then
shorter ones (backtracking). -/
def starThen (cls : Nat → Bool) (k : Str → Option Str) : Str → Option Str
  | [] => k []
  | c :: cs =>
    if cls c then
      match starThen cls k cs with
      | some r => some r
      | none => k (c :: cs)
    else k (c :: cs)

/-- Match of an anchored expression at the start of `s`: what is left of `s` after the
match, or `none`. -/
def matchStart : Regex → Str → Option Str
  | [], s => some s
  | ⟨cls, .one⟩ :: rest, s =>
    match s with
    | [] => none
    | c :: cs => if cls c then matchStart rest cs else none
  | ⟨cls, .plus⟩ :: rest, s =>
    match s with
    | [] => none
    | c :: cs => if cls c then starThen cls (matchStart rest) cs else none
  | ⟨cls, .star⟩ :: rest, s => starThen cls (matchStart rest) s

/-- `s.replace(re, '')` for an anchored expression without the `g` flag. -/
def removeMatch (re : Regex) (s : Str) : Str :=
  match matchStart re s with
  | some r => r
  | none => s

/-- Truthiness of `s.match(re)`. -/
def hasMatch (re : Regex) (s : Str) : Bool := (matchStart re s).isSome

/-- The expression `/^\d+[\.\)\:]\s*/` of both `findConnections`. -/
def enumMarker : Regex :=
  [⟨isDigit, .plus⟩, ⟨fun c => c == 0x2E || c == 0x29 || c == 0x3A, .one⟩, ⟨isWhiteSpace, .star⟩]

/-- What is left of `enumMarker` after its digits: `[\.\)\:]\s*`. -/
def markerRest : Regex :=
  [⟨fun c => c == 0x2E || c == 0x29 || c == 0x3A, .one⟩, ⟨isWhiteSpace, .star⟩]

/-- The expression `/^\d+[\.\)]/` of the filter in `background.js`. -/
def enumStart : Regex :=
  [⟨isDigit, .plus⟩, ⟨fun c => c == 0x2E || c == 0x29, .one⟩]

/-! ## The browser and the language model -/

/-- A tab as `chrome.tabs.query` returns it. -/
structure Tab where
  id : Nat
  title : Str
  url : Str
  deriving DecidableEq, Repr

/-- What `extractPageContent` returns (`content` is always a string there). -/
structure PageContent where
  title : Str
  description : Str
  content : Str
  deriving DecidableEq, Repr

/-- What `chrome.scripting.executeScript` does on one tab: it rejects, or it resolves without
a usable `result` (the test on `results[0].result` fails), or it resolves with the object
returned by `extractPageContent`. -/
inductive Extraction
  | threw (message : Str)
  | missing
  | page (p : PageContent)
  deriving DecidableEq, Repr

/-- A summary record `{ title, url, summary }`. -/
structure Summary where
  title : Str
  url : Str
  summary : Str
  deriving DecidableEq, Repr

/-- A citation record `{ title, url }`. -/
structure Source where
  title : Str
  url : Str
  deriving DecidableEq, Repr

/-- A call made to the browser or to the language model. -/
inductive Event
  | extract (tab : Tab)
  | create
  | prompt (session : Nat) (text : Str)
  deriving DecidableEq, Repr

/-- The calls made so far, oldest first. -/
abbrev Trace := List Event

/-- Number of sessions asked for so far. -/
def creations (tr : Trace) : Nat := tr.countP (fun e => e == Event.create)

/-- The prompts session `s` has received so far. -/
def promptsOf (s : Nat) (tr : Trace) : List Str :=
  tr.filterMap fun e =>
    match e with
    | .prompt s1 text => if s1 = s then some text else none
    | _ => none

/-- The tabs on which `executeScript` was called, in call order. -/
def extractions (tr : Trace) : List Tab :=
  tr.filterMap fun e =>
    match e with
    | .extract tab => some tab
    | _ => none

/-- The language model, as far as the program sees it. A session is named by the rank of the
`create` call that made it; a reply may depend on everything the session was asked before.
An `error` carries the `message` of what was thrown. -/
structure Runtime where
  hasLanguageModel : Bool
  create : Nat → Except Str Unit
  prompt : Nat → List Str → Str → Except Str Str

/-- The call `languageModel.create(...)`. -/
def createSession (rt : Runtime) (tr : Trace) : Except Str Nat × Trace :=
  match rt.create (creations tr) with
  | .ok _ => (.ok (creations tr), tr ++ [Event.create])
  | .error e => (.error e, tr ++ [Event.create])

/-- The call `session.prompt(text)`. -/
def sessionPrompt (rt : Runtime) (s : Nat) (text : Str) (tr : Trace) :
    Except Str Str × Trace :=
  (rt.prompt s (promptsOf s tr) text, tr ++ [Event.prompt s text])

/-- The body of the `map` callback building `summariesText`:
"Tab n - title:", a line break, the summary. -/
def summaryBlock (i : Nat) (s : Summary) : Str :=
  lit "Tab " ++ natToStr (i + 1) ++ lit " - " ++ s.title ++ lit ":\n" ++ s.summary

/-- The text `summariesText` of both `findConnections`. -/
def summariesText (summaries : List Summary) : Str :=
  join (lit "\n\n") (summaries.enum.map fun p => summaryBlock p.1 p.2)

/-- The summarization prompt, the same in both files. -/
def summaryPrompt (title content : Str) : Str :=
  lit "Summarize this article titled \"" ++ title ++
    lit "\" in 1-2 concise sentences:\n\n" ++ slice0 2000 content

/-- The block appended to `combinedContext` for one source, the same in both files. -/
def contextBlock (title content : Str) : Str :=
  lit "\n\nSource: " ++ title ++ lit "\n" ++ slice0 2000 content

/-- The test `tab.url.startsWith('http')`. -/
def isHttp (tab : Tab) : Bool := startsWith (lit "http") tab.url

/-- The fallback of both parsers. -/
def relatedTopics : Str := lit "All sources discuss related topics"

/-- The callback `line => line.replace(/^\d+[\.\)\:]\s*/, '').trim()`. -/
def cleanLine (line : Str) : Str := trim (removeMatch enumMarker line)

/-- The spec's words for the prefix removed from a kept line: "one or more digits followed
by `.`, `)` or `:` and any whitespace". The result is the line without it, or the line itself
when it does not start that way. -/
def withoutEnumeration (s : Str) : Str :=
  match s.dropWhile isDigit with
  | [] => s
  | c :: rest =>
    if s.takeWhile isDigit ≠ [] ∧ (c = 0x2E ∨ c = 0x29 ∨ c = 0x3A) then
      rest.dropWhile isWhiteSpace
    else s

/-- The spec's words for a line that starts with an enumeration marker: one or more digits
followed by `.` or `)`. -/
def startsEnumerated (s : Str) : Bool :=
  match s.dropWhile isDigit with
  | [] => false
  | c :: _ => !(s.takeWhile isDigit).isEmpty && (c == 0x2E || c == 0x29)

/-- The sources that yield content among the tabs a gathering or summarizing loop goes
through: the tabs with an `http` URL whose extraction returns a page, in list order. -/
def yielding (tabs : List (Tab × Extraction)) : List (Tab × PageContent) :=
  tabs.filterMap fun p =>
    if isHttp p.1 then
      match p.2 with
      | .page c => some (p.1, c)
      | _ => none
    else none

namespace SidePanel

/-- Lines 198 to 204 of `sidepanel.js`: the parser of `findConnections`. -/
def parseConnections (result : Str) : List Str :=
  let connections :=
    ((((split 0x0A result).map trim).filter (fun line => decide (line.length > 20))).map
      cleanLine).take 5
  if connections.length > 0 then connections else [relatedTopics]

/-- The prompt of `findConnections` in `sidepanel.js`. -/
def connectionsPrompt (summaries : List Summary) : Str :=
  lit "Analyze these article summaries and identify 3-4 key connections, common themes, or interesting comparisons. Format each as a single clear sentence:\n\n" ++
    summariesText summaries

/-- `findConnections(session, summaries)` of `sidepanel.js`. -/
def findConnections (rt : Runtime) (session : Nat) (summaries : List Summary) (tr : Trace) :
    List Str × Trace :=
  match sessionPrompt rt session (connectionsPrompt summaries) tr with
  | (.ok result, tr1) => (parseConnections result, tr1)
  | (.error _, tr1) => ([lit "Unable to analyze connections"], tr1)

/-- `tabs.filter(tab => tab.url.startsWith('http')).slice(0, 5)`, in `analyzeAllTabs` and in
`askQuestion`. -/
def httpTabs (tabs : List (Tab × Extraction)) : List (Tab × Extraction) :=
  (tabs.filter fun p => isHttp p.1).take 5

/-- An entry of `tabContents`: `{ title, url, content: result.result }`. -/
structure TabContent where
  title : Str
  url : Str
  content : PageContent
  deriving DecidableEq, Repr

/-- The extraction loop of `analyzeAllTabs` (lines 74 to 93). -/
def extractLoop : List (Tab × Extraction) → List TabContent → Trace → List TabContent × Trace
  | [], tabContents, tr => (tabContents, tr)
  | (tab, ex) :: rest, tabContents, tr =>
    match ex with
    | .page p =>
      extractLoop rest (tabContents ++ [⟨tab.title, tab.url, p⟩]) (tr ++ [Event.extract tab])
    | _ => extractLoop rest tabContents (tr ++ [Event.extract tab])

/-- The summarization loop of `analyzeAllTabs` (lines 107 to 126). -/
def summarizeLoop (rt : Runtime) (session : Nat) :
    List TabContent → List Summary → Trace → List Summary × Trace
  | [], summaries, tr => (summaries, tr)
  | tab :: rest, summaries, tr =>
    match sessionPrompt rt session (summaryPrompt tab.title tab.content.content) tr with
    | (.ok summary, tr1) =>
      summarizeLoop rt session rest (summaries ++ [⟨tab.title, tab.url, summary⟩]) tr1
    | (.error _, tr1) =>
      summarizeLoop rt session rest
        (summaries ++ [⟨tab.title, tab.url, lit "Summary unavailable"⟩]) tr1

/-- The gathering loop of `askQuestion` (lines 274 to 291). -/
def gatherLoop : List (Tab × Extraction) → Str → List Source → Str × List Source
  | [], combinedContext, sources => (combinedContext, sources)
  | (tab, ex) :: rest, combinedContext, sources =>
    match ex with
    | .page p =>
      gatherLoop rest (combinedContext ++ contextBlock tab.title p.content)
        (sources ++ [⟨tab.title, tab.url⟩])
    | _ => gatherLoop rest combinedContext sources

/-- What the template of line 298 puts after "Sources:": `combinedContext` itself. -/
def embeddedContext (combinedContext : Str) : Str := combinedContext

/-- The prompt of `askQuestion` (line 298). -/
def questionPrompt (question combinedContext : Str) : Str :=
  lit "Based on the following sources, answer this question: \"" ++ question ++
    lit "\"\n\nSources:" ++ embeddedContext combinedContext ++
    lit "\n\nProvide a clear, comprehensive answer in 2-4 sentences."

/-- The prompt `askQuestion` sends for the tabs of the window. -/
def askQuestionPrompt (question : Str) (tabs : List (Tab × Extraction)) : Str :=
  questionPrompt question (gatherLoop (httpTabs tabs) [] []).1

/-- The label computed in `displayCitations` (lines 236 to 241). `hostname` is what
`new URL(url).hostname` gives: the host, or an `error` when the constructor throws. -/
def citationLabel (hostname : Str → Except Str Str) (url : Str) : Except Str Str :=
  match hostname url with
  | .ok h => .ok (replaceFirst (lit "www.") [] h)
  | .error _ => .ok url

end SidePanel

namespace Background

/-- The filter callback of line 301 of `background.js`:
`line.length > 20 && !line.includes(':') || line.match(/^\d+[\.\)]/)`. -/
def keepLine (line : Str) : Bool :=
  (decide (line.length > 20) && !includes 0x3A line) || hasMatch enumStart line

/-- Lines 299 to 305 of `background.js`: the parser of `findConnections`. -/
def parseConnections (result : Str) : List Str :=
  let connections := ((((split 0x0A result).map trim).filter keepLine).map cleanLine).take 5
  if connections.length > 0 then connections else [relatedTopics]

/-- `createAISession()`. -/
def createAISession (rt : Runtime) (tr : Trace) : Except Str Nat × Trace :=
  if rt.hasLanguageModel then createSession rt tr
  else (.error (lit "AI languageModel not available in service worker"), tr)

/-- `summarizeContent(content, title)`. -/
def summarizeContent (rt : Runtime) (content title : Str) (tr : Trace) : Str × Trace :=
  match createAISession rt tr with
  | (.error e, tr1) => (lit "Summary unavailable - " ++ e, tr1)
  | (.ok session, tr1) =>
    match sessionPrompt rt session (summaryPrompt title content) tr1 with
    | (.ok summary, tr2) => (summary, tr2)
    | (.error e, tr2) => (lit "Summary unavailable - " ++ e, tr2)

/-- The prompt of `findConnections` in `background.js`. -/
def connectionsPrompt (summaries : List Summary) : Str :=
  lit "Analyze these article summaries and identify 3-4 key connections, common themes, or interesting comparisons between them. Format each as a single clear sentence:\n\n" ++
    summariesText summaries

/-- `findConnections(summaries)` of `background.js`. -/
def findConnections (rt : Runtime) (summaries : List Summary) (tr : Trace) :
    List Str × Trace :=
  if summaries.length < 2 then ([lit "Not enough tabs to find connections"], tr)
  else
    match createAISession rt tr with
    | (.error e, tr1) => ([lit "Unable to find connections: " ++ e], tr1)
    | (.ok session, tr1) =>
      match sessionPrompt rt session (connectionsPrompt summaries) tr1 with
      | (.ok result, tr2) => (parseConnections result, tr2)
      | (.error e, tr2) => ([lit "Unable to find connections: " ++ e], tr2)

/-- The loop of `handleSummarizeTabs` (lines 129 to 160), over `tabs.slice(0, 5)`. -/
def summarizeLoop (rt : Runtime) :
    List (Tab × Extraction) → List Summary → Trace → List Summary × Trace
  | [], summaries, tr => (summaries, tr)
  | (tab, ex) :: rest, summaries, tr =>
    if isHttp tab then
      match ex with
      | .page p =>
        match summarizeContent rt p.content tab.title (tr ++ [Event.extract tab]) with
        | (summary, tr1) =>
          summarizeLoop rt rest (summaries ++ [⟨tab.title, tab.url, summary⟩]) tr1
      | _ => summarizeLoop rt rest summaries (tr ++ [Event.extract tab])
    else summarizeLoop rt rest summaries tr

/-- What `sendResponse` receives from `handleSummarizeTabs`. -/
inductive Response
  | success (summaries : List Summary) (connections : List Str)
  | failure (error : Str)
  deriving DecidableEq, Repr

/-- `handleSummarizeTabs(sendResponse)`: the response sent and the calls made. `query` is
what `chrome.tabs.query` gives, each tab with what `executeScript` would do on it. -/
def handleSummarizeTabs (rt : Runtime) (query : Except Str (List (Tab × Extraction))) :
    Response × Trace :=
  match query with
  | .error e => (.failure e, [])
  | .ok tabs =>
    match summarizeLoop rt (tabs.take 5) [] [] with
    | (summaries, tr) =>
      match findConnections rt summaries tr with
      | (connections, tr1) => (.success summaries connections, tr1)

/-- The gathering loop of `handleAnswerQuestion` (lines 183 to 200), over `tabs.slice(0, 5)`. -/
def gatherLoop : List (Tab × Extraction) → Str → List Source → Str × List Source
  | [], combinedContext, sources => (combinedContext, sources)
  | (tab, ex) :: rest, combinedContext, sources =>
    if isHttp tab then
      match ex with
      | .page p =>
        gatherLoop rest (combinedContext ++ contextBlock tab.title p.content)
          (sources ++ [⟨tab.title, tab.url⟩])
      | _ => gatherLoop rest combinedContext sources
    else gatherLoop rest combinedContext sources

/-- What the template of line 316 puts after "Sources:": `context.slice(0, 5000)`. -/
def embeddedContext (context : Str) : Str := slice0 5000 context

/-- The prompt of `answerFromContext(question, context)` (line 316). -/
def questionPrompt (question context : Str) : Str :=
  lit "Based on the following sources, answer this question concisely: \"" ++ question ++
    lit "\"\n\nSources:" ++ embeddedContext context ++
    lit "\n\nProvide a clear, comprehensive answer in 2-4 sentences."

/-- The prompt `handleAnswerQuestion` has `answerFromContext` send for the tabs of the
window. -/
def answerQuestionPrompt (question : Str) (tabs : List (Tab × Extraction)) : Str :=
  questionPrompt question (gatherLoop (tabs.take 5) [] []).1

/-- An entry of `tabData`: `{ id, title, url, content: result.result }`. -/
structure TabData where
  id : Nat
  title : Str
  url : Str
  content : PageContent
  deriving DecidableEq, Repr

/-- The loop of `handleGetTabContent` (lines 38 to 64), over all the tabs of the window. -/
def tabContentLoop : List (Tab × Extraction) → List TabData → Trace → List TabData × Trace
  | [], tabData, tr => (tabData, tr)
  | (tab, ex) :: rest, tabData, tr =>
    if isHttp tab then
      match ex with
      | .page p =>
        tabContentLoop rest (tabData ++ [⟨tab.id, tab.title, tab.url, p⟩])
          (tr ++ [Event.extract tab])
      | _ => tabContentLoop rest tabData (tr ++ [Event.extract tab])
    else tabContentLoop rest tabData tr

/-- What `sendResponse` receives from `handleGetTabContent`. -/
inductive TabsResponse
  | success (tabs : List TabData)
  | failure (error : Str)
  deriving DecidableEq, Repr

/-- `handleGetTabContent(sendResponse)`: the response sent and the calls made. -/
def handleGetTabContent (query : Except Str (List (Tab × Extraction))) :
    TabsResponse × Trace :=
  match query with
  | .error e => (.failure e, [])
  | .ok tabs =>
    match tabContentLoop tabs [] [] with
    | (tabData, tr) => (.success tabData, tr)

end Background

/-! ## Inputs used in the examples -/

/-- A language model that is present and answers every prompt with the same three lines. -/
def steadyRuntime : Runtime where
  hasLanguageModel := true
  create := fun _ => .ok ()
  prompt := fun _ _ _ =>
    .ok (lit "1. Both articles cover solar power\nshort\n2. They disagree on the cost of it")

/-- A page whose content has 2000 characters. -/
def longPage : PageContent := ⟨lit "Page", [], List.replicate 2000 0x61⟩

/-- Three tabs with an `http` URL whose extraction returns `longPage`. -/
def threeLongTabs : List (Tab × Extraction) :=
  [(⟨1, lit "A", lit "https://a.example/"⟩, .page longPage),
   (⟨2, lit "B", lit "https://b.example/"⟩, .page longPage),
   (⟨3, lit "C", lit "https://c.example/"⟩, .page longPage)]

/-- A page with a short content. -/
def shortPage : PageContent := ⟨lit "Page", [], lit "Solar power is getting cheaper."⟩

/-- The tab with the given id, title `T` and URL `https://t.example/`. -/
def httpTab (id : Nat) : Tab := ⟨id, lit "T", lit "https://t.example/"⟩

/-- A browser page that is not fetched over `http`. -/
def newTab : Tab := ⟨0, lit "New Tab", lit "chrome://newtab/"⟩

/-- A window of six tabs: the new-tab page, then five `http` tabs that all yield content. -/
def sixTabs : List (Tab × Extraction) :=
  [(newTab, .missing), (httpTab 1, .page shortPage), (httpTab 2, .page shortPage),
   (httpTab 3, .page shortPage), (httpTab 4, .page shortPage), (httpTab 5, .page shortPage)]

/-- A window from which nothing can be extracted: the new-tab page, and an `http` tab on
which `executeScript` rejects. -/
def barrenTabs : List (Tab × Extraction) :=
  [(newTab, .missing), (httpTab 1, .threw (lit "Cannot access contents of the page"))]

/-- The summaries the spec asks of the summarization loop of `analyzeAllTabs`, for a session
that has already received the prompts `hist`: one per source, in order, the reply of the
model, or the sentinel when the prompt fails. -/
def sentinelSummaries (rt : Runtime) (session : Nat) :
    List Str → List SidePanel.TabContent → List Summary
  | _, [] => []
  | hist, tab :: rest =>
    ⟨tab.title, tab.url,
      match rt.prompt session hist (summaryPrompt tab.title tab.content.content) with
      | .ok reply => reply
      | .error _ => lit "Summary unavailable"⟩ ::
    sentinelSummaries rt session
      (hist ++ [summaryPrompt tab.title tab.content.content]) rest

/-- A language model whose sessions fail on their second prompt and answer "Fine." to all
others. -/
def flakyRuntime : Runtime where
  hasLanguageModel := true
  create := fun _ => .ok ()
  prompt := fun _ hist _ => if hist.length = 1 then .error (lit "busy") else .ok (lit "Fine.")

/-- Three extracted sources. -/
def threeContents : List SidePanel.TabContent :=
  [⟨lit "A", lit "https://a.example/", shortPage⟩,
   ⟨lit "B", lit "https://b.example/", shortPage⟩,
   ⟨lit "C", lit "https://c.example/", shortPage⟩]

/-- What `extractPageContent` returns on a page without text: an empty `content`. -/
def blankPage : PageContent := ⟨lit "Blank", [], []⟩

/-- A window with one `http` tab, whose page has no text. -/
def blankTabs : List (Tab × Extraction) := [(httpTab 1, .page blankPage)]

/-- A window with two `http` tabs that both yield content. -/
def twoTabs : List (Tab × Extraction) :=
  [(httpTab 1, .page shortPage), (httpTab 2, .page shortPage)]

/-- A service worker without `ai.languageModel`. -/
def absentRuntime : Runtime where
  hasLanguageModel := false
  create := fun _ => .ok ()
  prompt := fun _ _ _ => .ok (lit "Fine.")

/-- A language model whose `create` always rejects. -/
def rejectingRuntime : Runtime where
  hasLanguageModel := true
  create := fun _ => .error (lit "The model is not downloaded")
  prompt := fun _ _ _ => .ok (lit "Fine.")

/-- Every session has received at most one prompt, and no prompt was sent to a session that
has not been asked for yet. -/
def OnePromptEach (tr : Trace) : Prop :=
  ∀ s, (promptsOf s tr).length ≤ 1 ∧ (creations tr ≤ s → promptsOf s tr = [])

/-- The message of the error `createAISession` throws at its `k`-th call of `create` when no
session can be created: the fixed message of line 242 without `ai.languageModel`, the message
`create` rejects with otherwise. -/
def creationError (rt : Runtime) (k : Nat) : Str :=
  if rt.hasLanguageModel then
    match rt.create k with
    | .error e => e
    | .ok _ => []
  else lit "AI languageModel not available in service worker"

/-! ## Lemmas on the string primitives -/

theorem split_ne_nil (sep : Nat) (s : Str) : split sep s ≠ [] := by
  cases s with
  | nil => simp [split]
  | cons c cs =>
    unfold split
    split
    · simp
    · split <;> simp

theorem starThen_some (cls : Nat → Bool) (s : Str) :
    starThen cls (fun r => some r) s = some (s.dropWhile cls) := by
  induction s with
  | nil => simp [starThen]
  | cons c cs ih =>
    unfold starThen
    by_cases h : cls c = true
    · simp [h, ih, List.dropWhile_cons]
    · simp [h, List.dropWhile_cons]

theorem starThen_of_fails (cls : Nat → Bool) (k : Str → Option Str)
    (hk : ∀ c cs, cls c = true → k (c :: cs) = none) (s : Str) :
    starThen cls k s = k (s.dropWhile cls) := by
  induction s with
  | nil => simp [starThen]
  | cons c cs ih =>
    unfold starThen
    by_cases h : cls c = true
    · simp only [h, if_true, List.dropWhile_cons, ih]
      cases hr : k (List.dropWhile cls cs) with
      | some r => rfl
      | none => simpa using hk c cs h
    · simp [h, List.dropWhile_cons]

theorem matchStart_nil : matchStart [] = fun r => some r := by
  funext s
  simp [matchStart]

theorem isDigit_not_marker (c : Nat) (h : isDigit c = true) :
    (c == 0x2E || c == 0x29 || c == 0x3A) = false := by
  simp only [isDigit, Bool.and_eq_true, decide_eq_true_eq] at h
  simp only [Bool.or_eq_false_iff, beq_eq_false_iff_ne, ne_eq]
  omega

theorem matchStart_enumMarker_cons (c : Nat) (cs : Str) :
    matchStart enumMarker (c :: cs) =
      if isDigit c then starThen isDigit (matchStart markerRest) cs else none := rfl

theorem matchStart_markerRest_cons (c : Nat) (cs : Str) :
    matchStart markerRest (c :: cs) =
      if (c == 0x2E || c == 0x29 || c == 0x3A) = true then some (cs.dropWhile isWhiteSpace)
      else none := by
  simp [markerRest, matchStart, starThen_some]

theorem matchStart_markerRest_nil : matchStart markerRest [] = none := rfl

/-- The regular expression of the sources removes what the spec's words describe. -/
theorem removeMatch_enumMarker (s : Str) : removeMatch enumMarker s = withoutEnumeration s := by
  have hk : ∀ c cs, isDigit c = true → matchStart markerRest (c :: cs) = none := by
    intro c cs hc
    rw [matchStart_markerRest_cons, isDigit_not_marker c hc]
    simp
  cases s with
  | nil => simp [removeMatch, enumMarker, matchStart, withoutEnumeration]
  | cons c cs =>
    unfold removeMatch
    rw [matchStart_enumMarker_cons]
    by_cases hc : isDigit c = true
    · rw [if_pos hc, starThen_of_fails isDigit _ hk]
      simp only [withoutEnumeration, List.dropWhile_cons, List.takeWhile_cons, hc, if_true]
      cases hd : List.dropWhile isDigit cs with
      | nil => simp [matchStart_markerRest_nil]
      | cons d ds =>
        rw [matchStart_markerRest_cons]
        by_cases hm : (d == 0x2E || d == 0x29 || d == 0x3A) = true
        · have hm2 : d = 0x2E ∨ d = 0x29 ∨ d = 0x3A := by simpa [or_assoc] using hm
          simp [hm, hm2]
        · have hm2 : ¬ (d = 0x2E ∨ d = 0x29 ∨ d = 0x3A) := by simpa [and_assoc] using hm
          simp [hm, hm2]
    · simp [hc, withoutEnumeration, List.dropWhile_cons, List.takeWhile_cons]

/-! ## The parser of `sidepanel.js` -/

/-- **C1.** In `sidepanel.js`, a model output of at most five lines whose trimmed lengths all
exceed 20 gives one entry per line, in order: the line trimmed, its leading enumeration
(digits, then `.`, `)` or `:`, then whitespace) removed, and trimmed again. An output none of
whose lines has a trimmed length above 20 gives the single fallback sentence. -/
theorem sidepanel_parseConnections_lines (result : Str) :
    ((split 0x0A result).length ≤ 5 →
      (∀ line ∈ split 0x0A result, 20 < (trim line).length) →
      SidePanel.parseConnections result =
          (split 0x0A result).map (fun line => trim (withoutEnumeration (trim line))) ∧
        (SidePanel.parseConnections result).length = (split 0x0A result).length ∧
        1 ≤ (split 0x0A result).length) ∧
    ((∀ line ∈ split 0x0A result, (trim line).length ≤ 20) →
      SidePanel.parseConnections result = [lit "All sources discuss related topics"]) := by
  constructor
  · intro hn hlong
    have hpos : 0 < (split 0x0A result).length :=
      List.length_pos.mpr (split_ne_nil _ _)
    have hfilter : ((split 0x0A result).map trim).filter (fun line => decide (line.length > 20))
        = (split 0x0A result).map trim := by
      rw [List.filter_eq_self]
      intro l hl
      obtain ⟨line, hmem, rfl⟩ := List.mem_map.mp hl
      simpa using hlong line hmem
    have hmain : SidePanel.parseConnections result =
        (split 0x0A result).map (fun line => trim (withoutEnumeration (trim line))) := by
      unfold SidePanel.parseConnections
      simp only [hfilter, List.map_map]
      rw [List.take_of_length_le (by simpa using hn)]
      have hfun : cleanLine ∘ trim = fun line => trim (withoutEnumeration (trim line)) := by
        funext line
        simp [cleanLine, removeMatch_enumMarker]
      rw [hfun, if_pos (by simpa using hpos)]
    refine ⟨hmain, ?_, hpos⟩
    rw [hmain, List.length_map]
  · intro hshort
    have hfilter : ((split 0x0A result).map trim).filter (fun line => decide (line.length > 20))
        = [] := by
      rw [List.filter_eq_nil_iff]
      intro l hl
      obtain ⟨line, hmem, rfl⟩ := List.mem_map.mp hl
      have := hshort line hmem
      simp only [gt_iff_lt, decide_eq_true_eq, not_lt]
      exact this
    unfold SidePanel.parseConnections
    simp [hfilter, relatedTopics]

theorem sidepanel_parseConnections_lines_witness :
    (split 0x0A (lit "1. Both articles cover solar power\n2) They disagree on the cost of it")).length ≤ 5 ∧
    (∀ line ∈ split 0x0A (lit "1. Both articles cover solar power\n2) They disagree on the cost of it"),
      20 < (trim line).length) ∧
    SidePanel.parseConnections
        (lit "1. Both articles cover solar power\n2) They disagree on the cost of it") =
      [lit "Both articles cover solar power", lit "They disagree on the cost of it"] ∧
    (∀ line ∈ split 0x0A (lit "1. Yes\n\n   \n2. No"), (trim line).length ≤ 20) ∧
    SidePanel.parseConnections (lit "1. Yes\n\n   \n2. No") =
      [lit "All sources discuss related topics"] :=
  ⟨by decide, by decide,
    ((sidepanel_parseConnections_lines _).1 (by decide) (by decide)).1.trans (by decide),
    by decide, (sidepanel_parseConnections_lines _).2 (by decide)⟩

/-! ## The parser of `background.js` -/

theorem isDigit_not_start (c : Nat) (h : isDigit c = true) :
    (c == 0x2E || c == 0x29) = false := by
  simp only [isDigit, Bool.and_eq_true, decide_eq_true_eq] at h
  simp only [Bool.or_eq_false_iff, beq_eq_false_iff_ne, ne_eq]
  omega

theorem matchStart_enumStart_cons (c : Nat) (cs : Str) :
    matchStart enumStart (c :: cs) =
      if isDigit c then
        starThen isDigit (matchStart [⟨fun c => c == 0x2E || c == 0x29, .one⟩]) cs
      else none := rfl

theorem matchStart_startRest_cons (c : Nat) (cs : Str) :
    matchStart [⟨fun c => c == 0x2E || c == 0x29, .one⟩] (c :: cs) =
      if (c == 0x2E || c == 0x29) = true then some cs else none := by
  simp [matchStart]

/-- The expression `/^\d+[\.\)]/` matches the lines the spec calls enumerated. -/
theorem hasMatch_enumStart (s : Str) : hasMatch enumStart s = startsEnumerated s := by
  have hk : ∀ c cs, isDigit c = true →
      matchStart [⟨fun c => c == 0x2E || c == 0x29, .one⟩] (c :: cs) = none := by
    intro c cs hc
    rw [matchStart_startRest_cons, isDigit_not_start c hc]
    simp
  cases s with
  | nil => rfl
  | cons c cs =>
    unfold hasMatch
    rw [matchStart_enumStart_cons]
    by_cases hc : isDigit c = true
    · rw [if_pos hc, starThen_of_fails isDigit _ hk]
      simp only [startsEnumerated, List.dropWhile_cons, List.takeWhile_cons, hc, if_true]
      cases hd : List.dropWhile isDigit cs with
      | nil => simp [matchStart]
      | cons d ds =>
        rw [matchStart_startRest_cons]
        by_cases hm : (d == 0x2E || d == 0x29) = true
        · simp [hm]
        · simp [hm]
    · simp [hc, startsEnumerated, List.dropWhile_cons, List.takeWhile_cons]

/-- **C2, as stated, fails.** Four lines, each longer than 20 characters once trimmed; the
second contains `:` and does not start with digits, so `background.js` drops it and returns
three entries. -/
theorem background_parseConnections_drops_colon_line :
    (split 0x0A (lit "Both articles cover solar power\nKey theme: the cost of solar panels\nThey disagree on subsidies a lot\nEach cites the same 2023 study")).length = 4 ∧
    (∀ line ∈ split 0x0A (lit "Both articles cover solar power\nKey theme: the cost of solar panels\nThey disagree on subsidies a lot\nEach cites the same 2023 study"),
      20 < (trim line).length) ∧
    Background.parseConnections (lit "Both articles cover solar power\nKey theme: the cost of solar panels\nThey disagree on subsidies a lot\nEach cites the same 2023 study") =
      [lit "Both articles cover solar power", lit "They disagree on subsidies a lot",
        lit "Each cites the same 2023 study"] ∧
    (Background.parseConnections (lit "Both articles cover solar power\nKey theme: the cost of solar panels\nThey disagree on subsidies a lot\nEach cites the same 2023 study")).length ≠ 4 := by
  decide

/-- **C2, amended.** In `background.js` a trimmed line is kept exactly when it is longer than
20 characters and has no `:`, or it starts with digits followed by `.` or `)`. An output of at
most five lines that are all kept gives one entry per line, in order: the line trimmed, its
leading enumeration removed, and trimmed again. -/
theorem background_parseConnections_lines (result : Str) :
    (∀ line : Str, Background.keepLine line = true ↔
      (20 < line.length ∧ 0x3A ∉ line) ∨ startsEnumerated line = true) ∧
    ((split 0x0A result).length ≤ 5 →
      (∀ line ∈ split 0x0A result,
        (20 < (trim line).length ∧ 0x3A ∉ trim line) ∨ startsEnumerated (trim line) = true) →
      Background.parseConnections result =
          (split 0x0A result).map (fun line => trim (withoutEnumeration (trim line))) ∧
        (Background.parseConnections result).length = (split 0x0A result).length) := by
  have hkeep : ∀ line : Str, Background.keepLine line = true ↔
      (20 < line.length ∧ 0x3A ∉ line) ∨ startsEnumerated line = true := by
    intro line
    simp [Background.keepLine, includes, hasMatch_enumStart]
  refine ⟨hkeep, ?_⟩
  intro hn hall
  have hpos : 0 < (split 0x0A result).length :=
    List.length_pos.mpr (split_ne_nil _ _)
  have hfilter : ((split 0x0A result).map trim).filter Background.keepLine
      = (split 0x0A result).map trim := by
    rw [List.filter_eq_self]
    intro l hl
    obtain ⟨line, hmem, rfl⟩ := List.mem_map.mp hl
    exact (hkeep _).mpr (hall line hmem)
  have hmain : Background.parseConnections result =
      (split 0x0A result).map (fun line => trim (withoutEnumeration (trim line))) := by
    unfold Background.parseConnections
    simp only [hfilter, List.map_map]
    rw [List.take_of_length_le (by simpa using hn)]
    have hfun : cleanLine ∘ trim = fun line => trim (withoutEnumeration (trim line)) := by
      funext line
      simp [cleanLine, removeMatch_enumMarker]
    rw [hfun, if_pos (by simpa using hpos)]
  refine ⟨hmain, ?_⟩
  rw [hmain, List.length_map]

theorem background_parseConnections_lines_witness :
    (split 0x0A (lit "Both articles cover solar power\n2) Key theme: cost\nThey disagree on subsidies a lot\n  4. Each cites the same 2023 study")).length ≤ 5 ∧
    (∀ line ∈ split 0x0A (lit "Both articles cover solar power\n2) Key theme: cost\nThey disagree on subsidies a lot\n  4. Each cites the same 2023 study"),
      (20 < (trim line).length ∧ 0x3A ∉ trim line) ∨ startsEnumerated (trim line) = true) ∧
    Background.parseConnections (lit "Both articles cover solar power\n2) Key theme: cost\nThey disagree on subsidies a lot\n  4. Each cites the same 2023 study") =
      [lit "Both articles cover solar power", lit "Key theme: cost",
        lit "They disagree on subsidies a lot", lit "Each cites the same 2023 study"] :=
  ⟨by decide, by decide,
    ((background_parseConnections_lines _).2 (by decide) (by decide)).1.trans (by decide)⟩

/-! ## `findConnections` -/

theorem fallback_length_bounds (xs : List Str) (r : Str) :
    1 ≤ (if (xs.take 5).length > 0 then xs.take 5 else [r]).length ∧
      (if (xs.take 5).length > 0 then xs.take 5 else [r]).length ≤ 5 := by
  by_cases h : (xs.take 5).length > 0
  · rw [if_pos h]
    exact ⟨h, by simp [List.length_take]⟩
  · rw [if_neg h]
    simp

theorem sidepanel_parseConnections_length (result : Str) :
    1 ≤ (SidePanel.parseConnections result).length ∧
      (SidePanel.parseConnections result).length ≤ 5 :=
  fallback_length_bounds _ _

theorem background_parseConnections_length (result : Str) :
    1 ≤ (Background.parseConnections result).length ∧
      (Background.parseConnections result).length ≤ 5 :=
  fallback_length_bounds _ _

/-- **C3.** Whatever the summaries and whatever the language model does (any reply, a
failed session creation, a failed prompt), `findConnections` of `background.js` and of
`sidepanel.js` return between one and five entries; with fewer than two summaries the one of
`background.js` returns exactly "Not enough tabs to find connections". -/
theorem findConnections_between_one_and_five (rt : Runtime) (summaries : List Summary)
    (session : Nat) (tr : Trace) :
    (1 ≤ (Background.findConnections rt summaries tr).1.length ∧
      (Background.findConnections rt summaries tr).1.length ≤ 5) ∧
    (1 ≤ (SidePanel.findConnections rt session summaries tr).1.length ∧
      (SidePanel.findConnections rt session summaries tr).1.length ≤ 5) ∧
    (summaries.length < 2 →
      (Background.findConnections rt summaries tr).1 =
        [lit "Not enough tabs to find connections"]) := by
  refine ⟨?_, ?_, ?_⟩
  · unfold Background.findConnections
    split
    · simp
    · split
      · simp
      · split
        · exact background_parseConnections_length _
        · simp
  · unfold SidePanel.findConnections
    split
    · exact sidepanel_parseConnections_length _
    · simp
  · intro h
    simp [Background.findConnections, h]

theorem findConnections_between_one_and_five_witness :
    ([⟨lit "A", lit "https://a.example/", lit "About a."⟩] : List Summary).length < 2 ∧
    (Background.findConnections steadyRuntime
        [⟨lit "A", lit "https://a.example/", lit "About a."⟩] []).1 =
      [lit "Not enough tabs to find connections"] :=
  ⟨by decide,
    (findConnections_between_one_and_five steadyRuntime _ 0 []).2.2 (by decide)⟩

/-! ## The citation label of `displayCitations` -/

theorem replaceFirst_of_isPrefixOf (pat rep s : Str) (h : pat.isPrefixOf s = true)
    (hs : s ≠ []) : replaceFirst pat rep s = rep ++ s.drop pat.length := by
  cases s with
  | nil => exact absurd rfl hs
  | cons c cs => simp [replaceFirst, h]

/-- A host that starts with "www." loses exactly these four characters. -/
theorem citationLabel_of_www (hostname : Str → Except Str Str) (url rest : Str)
    (h : hostname url = .ok (lit "www." ++ rest)) :
    SidePanel.citationLabel hostname url = .ok rest := by
  have hp : (lit "www.").isPrefixOf (lit "www." ++ rest) = true := by
    simp [lit]
  have hne : lit "www." ++ rest ≠ [] := by simp [lit]
  simp only [SidePanel.citationLabel, h]
  rw [replaceFirst_of_isPrefixOf _ _ _ hp hne]
  simp [lit]

/-- **C4, where the code departs from it.** The host `api.www.example.com` does not start
with "www.", and the label is `api.example.com`: `replace('www.', '')` removes the first
"www." wherever it stands. The claim's own example, `www.example.com`, gives
`example.com`. -/
theorem citationLabel_removes_inner_www :
    startsWith (lit "www.") (lit "api.www.example.com") = false ∧
    SidePanel.citationLabel (fun _ => .ok (lit "api.www.example.com"))
        (lit "https://api.www.example.com/a") = .ok (lit "api.example.com") ∧
    SidePanel.citationLabel (fun _ => .ok (lit "api.www.example.com"))
        (lit "https://api.www.example.com/a") ≠ .ok (lit "api.www.example.com") ∧
    SidePanel.citationLabel (fun _ => .ok (lit "www.example.com"))
        (lit "https://www.example.com/a") = .ok (lit "example.com") := by
  decide

/-- **C5.** The label computation never raises, and for a locator that `new URL` rejects the
label is the locator itself. -/
theorem citationLabel_total (hostname : Str → Except Str Str) (url : Str) :
    (∃ label, SidePanel.citationLabel hostname url = .ok label) ∧
    (∀ e, hostname url = .error e → SidePanel.citationLabel hostname url = .ok url) := by
  constructor
  · unfold SidePanel.citationLabel
    split
    · exact ⟨_, rfl⟩
    · exact ⟨_, rfl⟩
  · intro e h
    simp [SidePanel.citationLabel, h]

theorem citationLabel_total_witness :
    SidePanel.citationLabel (fun _ => .error (lit "Invalid URL")) (lit "not a uri") =
      .ok (lit "not a uri") :=
  (citationLabel_total (fun _ => .error (lit "Invalid URL")) (lit "not a uri")).2
    (lit "Invalid URL") rfl

/-! ## The combined context -/

theorem background_gatherLoop_eq (tabs : List (Tab × Extraction)) (ctx : Str)
    (sources : List Source) :
    Background.gatherLoop tabs ctx sources =
      (ctx ++ ((yielding tabs).map fun p => contextBlock p.1.title p.2.content).flatten,
        sources ++ (yielding tabs).map fun p => ⟨p.1.title, p.1.url⟩) := by
  induction tabs generalizing ctx sources with
  | nil => simp [Background.gatherLoop, yielding]
  | cons p rest ih =>
    obtain ⟨tab, ex⟩ := p
    unfold Background.gatherLoop
    by_cases hh : isHttp tab = true
    · cases ex with
      | page c =>
        simp only [hh, if_true, ih]
        simp [yielding, List.filterMap_cons, hh]
      | threw m =>
        simp only [hh, if_true, ih]
        simp [yielding, List.filterMap_cons, hh]
      | missing =>
        simp only [hh, if_true, ih]
        simp [yielding, List.filterMap_cons, hh]
    · simp only [hh, ih]
      simp [yielding, List.filterMap_cons, hh]

/-- **C6.** The prompt of `answerFromContext` is its fixed text around the question and an
embedded context; the embedded context is the first 5000 characters of the concatenation, in
order, of the blocks of the sources that yielded content among `tabs.slice(0, 5)`; each block
is the header, the title, a line break and the first 2000 characters of the content; so the
embedded context has at most 5000 characters and no block more than 2000 of content. -/
theorem background_context_capped (question : Str) (tabs : List (Tab × Extraction)) :
    Background.answerQuestionPrompt question tabs =
      lit "Based on the following sources, answer this question concisely: \"" ++ question ++
        lit "\"\n\nSources:" ++
        Background.embeddedContext (Background.gatherLoop (tabs.take 5) [] []).1 ++
        lit "\n\nProvide a clear, comprehensive answer in 2-4 sentences." ∧
    Background.embeddedContext (Background.gatherLoop (tabs.take 5) [] []).1 =
      (((yielding (tabs.take 5)).map fun p =>
        lit "\n\nSource: " ++ p.1.title ++ lit "\n" ++ p.2.content.take 2000).flatten).take
        5000 ∧
    (Background.embeddedContext (Background.gatherLoop (tabs.take 5) [] []).1).length ≤ 5000 ∧
    (∀ p ∈ yielding (tabs.take 5), (p.2.content.take 2000).length ≤ 2000) ∧
    (Background.gatherLoop (tabs.take 5) [] []).2 =
      (yielding (tabs.take 5)).map fun p => ⟨p.1.title, p.1.url⟩ := by
  refine ⟨rfl, ?_, ?_, ?_, ?_⟩
  · rw [background_gatherLoop_eq]
    simp [Background.embeddedContext, slice0, contextBlock]
  · simp [Background.embeddedContext, slice0, List.length_take]
  · intro p _
    simp [List.length_take]
  · rw [background_gatherLoop_eq]
    simp

/-- The gathering loop of `handleAnswerQuestion` looks at the first five tabs of the window
only: with the new-tab page first and five `http` tabs after it, the fifth `http` tab gives
neither a block nor a source. -/
theorem background_context_of_first_five_tabs :
    (Background.gatherLoop (sixTabs.take 5) [] []).2 =
      [⟨lit "T", lit "https://t.example/"⟩, ⟨lit "T", lit "https://t.example/"⟩,
        ⟨lit "T", lit "https://t.example/"⟩, ⟨lit "T", lit "https://t.example/"⟩] ∧
    (yielding sixTabs).length = 5 := by
  decide

/-- **C7, where the code departs from it.** With three `http` tabs of 2000 characters each,
the context embedded in the prompt of `askQuestion` has 6036 characters: line 298 inserts
`combinedContext` as it is. On the same tabs `answerFromContext` of `background.js` embeds
5000 characters. -/
theorem sidepanel_context_not_capped :
    (SidePanel.embeddedContext
      (SidePanel.gatherLoop (SidePanel.httpTabs threeLongTabs) [] []).1).length = 6036 ∧
    SidePanel.askQuestionPrompt (lit "Why?") threeLongTabs =
      lit "Based on the following sources, answer this question: \"" ++ lit "Why?" ++
        lit "\"\n\nSources:" ++
        SidePanel.embeddedContext
          (SidePanel.gatherLoop (SidePanel.httpTabs threeLongTabs) [] []).1 ++
        lit "\n\nProvide a clear, comprehensive answer in 2-4 sentences." ∧
    (Background.embeddedContext
      (Background.gatherLoop (threeLongTabs.take 5) [] []).1).length = 5000 := by
  have hhead : (lit "\n\nSource: ").length = 10 := rfl
  have hbreak : (lit "\n").length = 1 := rfl
  have hA : (lit "A").length = 1 := rfl
  have hB : (lit "B").length = 1 := rfl
  have hC : (lit "C").length = 1 := rfl
  have hlen : (List.take 2000 longPage.content).length = 2000 := by
    rw [List.length_take]
    show min 2000 (List.replicate 2000 0x61).length = 2000
    rw [List.length_replicate]
    rfl
  have hfilter : SidePanel.httpTabs threeLongTabs = threeLongTabs := rfl
  have hslice : threeLongTabs.take 5 = threeLongTabs := rfl
  refine ⟨?_, rfl, ?_⟩
  · rw [hfilter]
    simp [SidePanel.embeddedContext, SidePanel.gatherLoop, threeLongTabs, contextBlock,
      slice0, hhead, hbreak, hA, hB, hC, hlen]
  · rw [hslice, background_gatherLoop_eq]
    have hy : yielding threeLongTabs =
        [(⟨1, lit "A", lit "https://a.example/"⟩, longPage),
         (⟨2, lit "B", lit "https://b.example/"⟩, longPage),
         (⟨3, lit "C", lit "https://c.example/"⟩, longPage)] := rfl
    rw [hy]
    simp [Background.embeddedContext, contextBlock, slice0, hhead, hbreak, hA, hB, hC, hlen]

/-! ## `handleSummarizeTabs` -/

theorem extractions_append (a b : Trace) :
    extractions (a ++ b) = extractions a ++ extractions b := by
  simp [extractions, List.filterMap_append]

theorem extractions_createAISession (rt : Runtime) (tr : Trace) :
    extractions (Background.createAISession rt tr).2 = extractions tr := by
  unfold Background.createAISession createSession
  split
  · split <;> simp [extractions_append, extractions]
  · rfl

theorem extractions_sessionPrompt (rt : Runtime) (s : Nat) (text : Str) (tr : Trace) :
    extractions (sessionPrompt rt s text tr).2 = extractions tr := by
  simp [sessionPrompt, extractions_append, extractions]

theorem extractions_summarizeContent (rt : Runtime) (content title : Str) (tr : Trace) :
    extractions (Background.summarizeContent rt content title tr).2 = extractions tr := by
  unfold Background.summarizeContent
  split
  next e tr1 h =>
    have := extractions_createAISession rt tr
    rw [h] at this
    exact this
  next session tr1 h =>
    have h1 := extractions_createAISession rt tr
    rw [h] at h1
    have h2 := extractions_sessionPrompt rt session (summaryPrompt title content) tr1
    split
    next summary tr2 hp =>
      rw [hp] at h2
      exact h2.trans h1
    next e tr2 hp =>
      rw [hp] at h2
      exact h2.trans h1

theorem extractions_findConnections (rt : Runtime) (summaries : List Summary) (tr : Trace) :
    extractions (Background.findConnections rt summaries tr).2 = extractions tr := by
  unfold Background.findConnections
  split
  · rfl
  · split
    next e tr1 h =>
      have := extractions_createAISession rt tr
      rw [h] at this
      exact this
    next session tr1 h =>
      have h1 := extractions_createAISession rt tr
      rw [h] at h1
      have h2 := extractions_sessionPrompt rt session
        (Background.connectionsPrompt summaries) tr1
      split
      next result tr2 hp =>
        rw [hp] at h2
        exact h2.trans h1
      next e tr2 hp =>
        rw [hp] at h2
        exact h2.trans h1

theorem extractions_summarizeLoop (rt : Runtime) (tabs : List (Tab × Extraction))
    (summaries : List Summary) (tr : Trace) :
    extractions (Background.summarizeLoop rt tabs summaries tr).2 =
      extractions tr ++ (tabs.filter fun p => isHttp p.1).map Prod.fst := by
  induction tabs generalizing summaries tr with
  | nil => simp [Background.summarizeLoop]
  | cons p rest ih =>
    obtain ⟨tab, ex⟩ := p
    unfold Background.summarizeLoop
    by_cases hh : isHttp tab = true
    · cases ex with
      | page c =>
        simp only [hh, if_true]
        rw [ih, extractions_summarizeContent]
        simp [extractions_append, extractions, hh]
      | threw m =>
        simp only [hh, if_true]
        rw [ih]
        simp [extractions_append, extractions, hh]
      | missing =>
        simp only [hh, if_true]
        rw [ih]
        simp [extractions_append, extractions, hh]
    · have hf : isHttp tab = false := by simpa using hh
      simp only [hf, Bool.false_eq_true, if_false]
      rw [ih]
      simp [hf]

/-- The tabs on which `handleSummarizeTabs` calls `executeScript`: the `http` tabs among the
first five tabs of the window. -/
theorem extractions_handleSummarizeTabs (rt : Runtime) (tabs : List (Tab × Extraction)) :
    extractions (Background.handleSummarizeTabs rt (.ok tabs)).2 =
      ((tabs.take 5).filter fun p => isHttp p.1).map Prod.fst := by
  unfold Background.handleSummarizeTabs
  simp only
  rw [extractions_findConnections, extractions_summarizeLoop]
  simp [extractions]

/-- **C8, where the code departs from it.** In a window whose first tab is the new-tab page
and whose next five tabs are `http` tabs, the first five `http` tabs are tabs 1 to 5 (what
`analyzeAllTabs` of `sidepanel.js` takes), and `handleSummarizeTabs` extracts from tabs 1 to 4
only: it slices the list before testing the URLs. -/
theorem background_skips_fifth_http_tab (rt : Runtime) :
    extractions (Background.handleSummarizeTabs rt (.ok sixTabs)).2 =
      [httpTab 1, httpTab 2, httpTab 3, httpTab 4] ∧
    (SidePanel.httpTabs sixTabs).map Prod.fst =
      [httpTab 1, httpTab 2, httpTab 3, httpTab 4, httpTab 5] ∧
    httpTab 5 ∉ extractions (Background.handleSummarizeTabs rt (.ok sixTabs)).2 := by
  have h : extractions (Background.handleSummarizeTabs rt (.ok sixTabs)).2 =
      [httpTab 1, httpTab 2, httpTab 3, httpTab 4] := by
    rw [extractions_handleSummarizeTabs]
    decide
  refine ⟨h, by decide, ?_⟩
  rw [h]
  decide

theorem summaries_summarizeLoop_of_barren (rt : Runtime) (tabs : List (Tab × Extraction))
    (summaries : List Summary) (tr : Trace) (h : yielding tabs = []) :
    (Background.summarizeLoop rt tabs summaries tr).1 = summaries := by
  induction tabs generalizing tr with
  | nil => simp [Background.summarizeLoop]
  | cons p rest ih =>
    obtain ⟨tab, ex⟩ := p
    unfold Background.summarizeLoop
    by_cases hh : isHttp tab = true
    · cases ex with
      | page c => simp [yielding, List.filterMap_cons, hh] at h
      | threw m =>
        simp only [hh, if_true]
        exact ih _ (by simpa [yielding, List.filterMap_cons, hh] using h)
      | missing =>
        simp only [hh, if_true]
        exact ih _ (by simpa [yielding, List.filterMap_cons, hh] using h)
    · have hf : isHttp tab = false := by simpa using hh
      simp only [hf, Bool.false_eq_true, if_false]
      exact ih _ (by simpa [yielding, List.filterMap_cons, hf] using h)

/-- **C9, where the code departs from it.** When none of the tabs `handleSummarizeTabs` goes
through yields content, the response is `success: true` with an empty `summaries` and the
connections "Not enough tabs to find connections". -/
theorem background_empty_result_is_success (rt : Runtime) (tabs : List (Tab × Extraction))
    (h : yielding (tabs.take 5) = []) :
    (Background.handleSummarizeTabs rt (.ok tabs)).1 =
      .success [] [lit "Not enough tabs to find connections"] := by
  unfold Background.handleSummarizeTabs
  simp only
  have hs := summaries_summarizeLoop_of_barren rt (tabs.take 5) [] [] h
  rw [hs]
  simp [Background.findConnections]

theorem background_empty_result_is_success_witness :
    yielding (barrenTabs.take 5) = [] ∧
    (Background.handleSummarizeTabs steadyRuntime (.ok barrenTabs)).1 =
      .success [] [lit "Not enough tabs to find connections"] :=
  ⟨by decide, background_empty_result_is_success steadyRuntime barrenTabs (by decide)⟩

/-! ## The summarization loop of `analyzeAllTabs` -/

theorem promptsOf_append (s : Nat) (a b : Trace) :
    promptsOf s (a ++ b) = promptsOf s a ++ promptsOf s b := by
  simp [promptsOf, List.filterMap_append]

theorem promptsOf_sessionPrompt (rt : Runtime) (s : Nat) (text : Str) (tr : Trace) :
    promptsOf s (sessionPrompt rt s text tr).2 = promptsOf s tr ++ [text] := by
  simp [sessionPrompt, promptsOf_append, promptsOf]

theorem sidepanel_summarizeLoop_eq (rt : Runtime) (session : Nat)
    (tabs : List SidePanel.TabContent) (summaries : List Summary) (tr : Trace) :
    (SidePanel.summarizeLoop rt session tabs summaries tr).1 =
      summaries ++ sentinelSummaries rt session (promptsOf session tr) tabs := by
  induction tabs generalizing summaries tr with
  | nil => simp [SidePanel.summarizeLoop, sentinelSummaries]
  | cons tab rest ih =>
    unfold SidePanel.summarizeLoop
    have hp := promptsOf_sessionPrompt rt session
      (summaryPrompt tab.title tab.content.content) tr
    have hr : (sessionPrompt rt session (summaryPrompt tab.title tab.content.content) tr).1 =
        rt.prompt session (promptsOf session tr)
          (summaryPrompt tab.title tab.content.content) := rfl
    split
    next summary tr1 h =>
      rw [h] at hp hr
      simp only at hp hr
      rw [ih, hp]
      simp [sentinelSummaries, ← hr]
    next e tr1 h =>
      rw [h] at hp hr
      simp only at hp hr
      rw [ih, hp]
      simp [sentinelSummaries, ← hr]

theorem sentinelSummaries_length (rt : Runtime) (session : Nat) (hist : List Str)
    (tabs : List SidePanel.TabContent) :
    (sentinelSummaries rt session hist tabs).length = tabs.length := by
  induction tabs generalizing hist with
  | nil => rfl
  | cons tab rest ih => simp [sentinelSummaries, ih]

theorem sentinelSummaries_getElem_opt (rt : Runtime) (session : Nat) (hist : List Str)
    (tabs : List SidePanel.TabContent) (i : Nat) (tab : SidePanel.TabContent)
    (h : tabs[i]? = some tab) :
    (sentinelSummaries rt session hist tabs)[i]? =
      some ⟨tab.title, tab.url,
        match rt.prompt session
          (hist ++ (tabs.take i).map fun t => summaryPrompt t.title t.content.content)
          (summaryPrompt tab.title tab.content.content) with
        | .ok reply => reply
        | .error _ => lit "Summary unavailable"⟩ := by
  induction tabs generalizing hist i with
  | nil => simp at h
  | cons t rest ih =>
    cases i with
    | zero =>
      simp only [List.getElem?_cons_zero, Option.some.injEq] at h
      subst h
      simp [sentinelSummaries]
    | succ j =>
      simp only [List.getElem?_cons_succ] at h
      simp only [sentinelSummaries, List.getElem?_cons_succ]
      rw [ih _ _ h]
      simp

/-- **C10.** The summarization loop of `analyzeAllTabs` returns one summary per extracted
source, in order: summary `i` has the title and the URL of source `i`; its text is the reply
of the model to that source's prompt when the prompt succeeds and "Summary unavailable" when
it fails, whatever happens to the prompts of the other sources. -/
theorem sidepanel_summaries_one_per_source (rt : Runtime) (session : Nat)
    (tabContents : List SidePanel.TabContent) (tr : Trace) :
    (SidePanel.summarizeLoop rt session tabContents [] tr).1.length = tabContents.length ∧
    ∀ (i : Nat) (tab : SidePanel.TabContent), tabContents[i]? = some tab →
      (∀ reply,
        rt.prompt session
            (promptsOf session tr ++
              (tabContents.take i).map fun t => summaryPrompt t.title t.content.content)
            (summaryPrompt tab.title tab.content.content) = .ok reply →
        (SidePanel.summarizeLoop rt session tabContents [] tr).1[i]? =
          some ⟨tab.title, tab.url, reply⟩) ∧
      (∀ e,
        rt.prompt session
            (promptsOf session tr ++
              (tabContents.take i).map fun t => summaryPrompt t.title t.content.content)
            (summaryPrompt tab.title tab.content.content) = .error e →
        (SidePanel.summarizeLoop rt session tabContents [] tr).1[i]? =
          some ⟨tab.title, tab.url, lit "Summary unavailable"⟩) := by
  rw [sidepanel_summarizeLoop_eq]
  refine ⟨by simp [sentinelSummaries_length], ?_⟩
  intro i tab h
  have hget := sentinelSummaries_getElem_opt rt session (promptsOf session tr) tabContents i tab h
  constructor
  · intro reply hr
    rw [List.nil_append, hget, hr]
  · intro e hr
    rw [List.nil_append, hget, hr]

theorem sidepanel_summaries_one_per_source_witness :
    (SidePanel.summarizeLoop flakyRuntime 0 threeContents [] [Event.create]).1 =
      [⟨lit "A", lit "https://a.example/", lit "Fine."⟩,
       ⟨lit "B", lit "https://b.example/", lit "Summary unavailable"⟩,
       ⟨lit "C", lit "https://c.example/", lit "Fine."⟩] ∧
    (SidePanel.summarizeLoop flakyRuntime 0 threeContents [] [Event.create]).1[1]? =
      some ⟨lit "B", lit "https://b.example/", lit "Summary unavailable"⟩ ∧
    (SidePanel.summarizeLoop flakyRuntime 0 threeContents [] [Event.create]).1[2]? =
      some ⟨lit "C", lit "https://c.example/", lit "Fine."⟩ :=
  ⟨by decide,
    ((sidepanel_summaries_one_per_source flakyRuntime 0 threeContents [Event.create]).2 1
      ⟨lit "B", lit "https://b.example/", shortPage⟩ rfl).2 (lit "busy") rfl,
    ((sidepanel_summaries_one_per_source flakyRuntime 0 threeContents [Event.create]).2 2
      ⟨lit "C", lit "https://c.example/", shortPage⟩ rfl).1 (lit "Fine.") rfl⟩

/-! ## The collections `tabData` and `tabContents` -/

theorem tabContentLoop_eq (tabs : List (Tab × Extraction)) (tabData : List Background.TabData)
    (tr : Trace) :
    (Background.tabContentLoop tabs tabData tr).1 =
      tabData ++ (yielding tabs).map fun p => ⟨p.1.id, p.1.title, p.1.url, p.2⟩ := by
  induction tabs generalizing tabData tr with
  | nil => simp [Background.tabContentLoop, yielding]
  | cons p rest ih =>
    obtain ⟨tab, ex⟩ := p
    unfold Background.tabContentLoop
    by_cases hh : isHttp tab = true
    · cases ex with
      | page c =>
        simp only [hh, if_true, ih]
        simp [yielding, List.filterMap_cons, hh]
      | threw m =>
        simp only [hh, if_true, ih]
        simp [yielding, List.filterMap_cons, hh]
      | missing =>
        simp only [hh, if_true, ih]
        simp [yielding, List.filterMap_cons, hh]
    · have hf : isHttp tab = false := by simpa using hh
      simp only [hf, Bool.false_eq_true, if_false, ih]
      simp [yielding, List.filterMap_cons, hf]

theorem extractLoop_eq (tabs : List (Tab × Extraction))
    (tabContents : List SidePanel.TabContent) (tr : Trace)
    (hall : ∀ p ∈ tabs, isHttp p.1 = true) :
    (SidePanel.extractLoop tabs tabContents tr).1 =
      tabContents ++ (yielding tabs).map fun p => ⟨p.1.title, p.1.url, p.2⟩ := by
  induction tabs generalizing tabContents tr with
  | nil => simp [SidePanel.extractLoop, yielding]
  | cons p rest ih =>
    obtain ⟨tab, ex⟩ := p
    have hh : isHttp tab = true := hall (tab, ex) (List.mem_cons_self _ _)
    have hrest : ∀ p ∈ rest, isHttp p.1 = true := fun p hp =>
      hall p (List.mem_cons_of_mem _ hp)
    unfold SidePanel.extractLoop
    cases ex with
    | page c =>
      simp only [ih _ _ hrest]
      simp [yielding, List.filterMap_cons, hh]
    | threw m =>
      simp only [ih _ _ hrest]
      simp [yielding, List.filterMap_cons, hh]
    | missing =>
      simp only [ih _ _ hrest]
      simp [yielding, List.filterMap_cons, hh]

theorem isHttp_of_mem_httpTabs (tabs : List (Tab × Extraction)) :
    ∀ p ∈ SidePanel.httpTabs tabs, isHttp p.1 = true := by
  intro p hp
  have hmem : p ∈ tabs.filter fun p => isHttp p.1 := List.mem_of_mem_take hp
  simpa using (List.mem_filter.mp hmem).2

theorem mem_yielding (tabs : List (Tab × Extraction)) (p : Tab × PageContent)
    (hp : p ∈ yielding tabs) : (p.1, Extraction.page p.2) ∈ tabs ∧ isHttp p.1 = true := by
  simp only [yielding, List.mem_filterMap] at hp
  obtain ⟨q, hq, hsome⟩ := hp
  obtain ⟨tab, ex⟩ := q
  by_cases hh : isHttp tab = true
  · cases ex with
    | page c =>
      simp only [hh, if_true, Option.some.injEq] at hsome
      subst hsome
      exact ⟨hq, hh⟩
    | threw m => simp [hh] at hsome
    | missing => simp [hh] at hsome
  · simp [hh] at hsome

/-- **C11, as stated, fails.** An `http` tab whose page has no text: `extractPageContent`
returns an object with an empty `content`, the object is truthy, and the tab is placed in
`tabData` and in `tabContents` with that empty content. -/
theorem collections_keep_empty_content :
    blankPage.content = [] ∧
    (Background.handleGetTabContent (.ok blankTabs)).1 =
      .success [⟨1, lit "T", lit "https://t.example/", blankPage⟩] ∧
    (SidePanel.extractLoop (SidePanel.httpTabs blankTabs) [] []).1 =
      [⟨lit "T", lit "https://t.example/", blankPage⟩] ∧
    ¬ (∀ src ∈ (SidePanel.extractLoop (SidePanel.httpTabs blankTabs) [] []).1,
      src.content.content ≠ []) := by
  decide

/-- **C11, amended.** `tabData` of `handleGetTabContent` has one entry per `http` tab of the
window whose extraction returned a result object, in order, and `tabContents` of
`analyzeAllTabs` one per such tab among the first five `http` tabs; each entry carries the
title and URL of its tab and the object returned for it. A tab whose extraction rejects or
returns no result is in neither collection: every entry comes from a tab of the window with
an `http` URL on which `executeScript` returned that object. -/
theorem collections_hold_extracted_pages (tabs : List (Tab × Extraction)) :
    (Background.handleGetTabContent (.ok tabs)).1 =
      .success ((yielding tabs).map fun p => ⟨p.1.id, p.1.title, p.1.url, p.2⟩) ∧
    (SidePanel.extractLoop (SidePanel.httpTabs tabs) [] []).1 =
      ((yielding (SidePanel.httpTabs tabs)).map fun p => ⟨p.1.title, p.1.url, p.2⟩) ∧
    (∀ p ∈ yielding tabs, (p.1, Extraction.page p.2) ∈ tabs ∧ isHttp p.1 = true) ∧
    (∀ p ∈ yielding (SidePanel.httpTabs tabs),
      (p.1, Extraction.page p.2) ∈ tabs ∧ isHttp p.1 = true) := by
  refine ⟨?_, ?_, mem_yielding tabs, ?_⟩
  · unfold Background.handleGetTabContent
    simp only
    rw [tabContentLoop_eq]
    simp
  · rw [extractLoop_eq _ _ _ (isHttp_of_mem_httpTabs tabs)]
    simp
  · intro p hp
    have h := mem_yielding _ p hp
    refine ⟨?_, h.2⟩
    have hmem : (p.1, Extraction.page p.2) ∈ tabs.filter fun p => isHttp p.1 :=
      List.mem_of_mem_take h.1
    exact (List.mem_filter.mp hmem).1

theorem collections_hold_extracted_pages_witness :
    (httpTab 1, shortPage) ∈ yielding barrenTabs ++ yielding sixTabs ∧
    ((httpTab 1, Extraction.page shortPage) ∈ sixTabs ∧ isHttp (httpTab 1) = true) ∧
    yielding barrenTabs = [] :=
  ⟨by decide, (collections_hold_extracted_pages sixTabs).2.2.1 (httpTab 1, shortPage)
    (by decide), by decide⟩

/-! ## Sessions created by `handleSummarizeTabs` -/

theorem creations_append (a b : Trace) : creations (a ++ b) = creations a + creations b := by
  simp [creations, List.countP_append]

theorem creations_create : creations [Event.create] = 1 := rfl

theorem creations_extract (tab : Tab) : creations [Event.extract tab] = 0 := by
  simp [creations, List.countP_cons]

theorem creations_prompt (s : Nat) (text : Str) : creations [Event.prompt s text] = 0 := by
  simp [creations, List.countP_cons]

theorem promptsOf_create (s : Nat) : promptsOf s [Event.create] = [] := rfl

theorem promptsOf_extract (s : Nat) (tab : Tab) : promptsOf s [Event.extract tab] = [] := rfl

theorem onePromptEach_nil : OnePromptEach [] := by
  intro s
  simp [promptsOf]

theorem onePromptEach_extract (tr : Trace) (tab : Tab) (h : OnePromptEach tr) :
    OnePromptEach (tr ++ [Event.extract tab]) := by
  intro s
  rw [promptsOf_append, promptsOf_extract, List.append_nil, creations_append,
    creations_extract, Nat.add_zero]
  exact h s

theorem onePromptEach_create (tr : Trace) (h : OnePromptEach tr) :
    OnePromptEach (tr ++ [Event.create]) := by
  intro s
  rw [promptsOf_append, promptsOf_create, List.append_nil, creations_append, creations_create]
  exact ⟨(h s).1, fun hs => (h s).2 (by omega)⟩

theorem onePromptEach_create_prompt (tr : Trace) (text : Str) (h : OnePromptEach tr) :
    OnePromptEach (tr ++ [Event.create] ++ [Event.prompt (creations tr) text]) := by
  intro s
  rw [promptsOf_append, promptsOf_append, promptsOf_create, List.append_nil, creations_append,
    creations_append, creations_create, creations_prompt]
  by_cases hs : creations tr = s
  · subst hs
    have h0 := (h (creations tr)).2 (Nat.le_refl _)
    have hp : promptsOf (creations tr) [Event.prompt (creations tr) text] = [text] := by
      simp [promptsOf]
    rw [h0, hp]
    exact ⟨by simp, fun hle => absurd hle (by omega)⟩
  · have hp : promptsOf s [Event.prompt (creations tr) text] = [] := by
      simp [promptsOf, hs]
    rw [hp, List.append_nil]
    exact ⟨(h s).1, fun hle => (h s).2 (by omega)⟩

/-- What `summarizeContent` adds to the trace: nothing without `ai.languageModel`, a `create`
when it rejects, a `create` and one prompt to the new session otherwise. -/
theorem summarizeContent_trace (rt : Runtime) (content title : Str) (tr : Trace) :
    (rt.hasLanguageModel = false ∧ (Background.summarizeContent rt content title tr).2 = tr) ∨
    (rt.hasLanguageModel = true ∧
      ((Background.summarizeContent rt content title tr).2 = tr ++ [Event.create] ∨
        (Background.summarizeContent rt content title tr).2 =
          tr ++ [Event.create] ++
            [Event.prompt (creations tr) (summaryPrompt title content)])) := by
  unfold Background.summarizeContent Background.createAISession createSession
  cases hlm : rt.hasLanguageModel with
  | false => simp
  | true =>
    right
    refine ⟨rfl, ?_⟩
    cases hc : rt.create (creations tr) with
    | error e => simp
    | ok u =>
      right
      simp only [if_true, sessionPrompt]
      split <;> rename_i heq <;> simp only [Prod.mk.injEq] at heq <;> exact heq.2.symm

/-- What `findConnections` of `background.js` adds to the trace. -/
theorem findConnections_trace (rt : Runtime) (summaries : List Summary) (tr : Trace) :
    ((summaries.length < 2 ∨ rt.hasLanguageModel = false) ∧
      (Background.findConnections rt summaries tr).2 = tr) ∨
    (2 ≤ summaries.length ∧ rt.hasLanguageModel = true ∧
      ((Background.findConnections rt summaries tr).2 = tr ++ [Event.create] ∨
        (Background.findConnections rt summaries tr).2 =
          tr ++ [Event.create] ++
            [Event.prompt (creations tr) (Background.connectionsPrompt summaries)])) := by
  unfold Background.findConnections Background.createAISession createSession
  by_cases hlen : summaries.length < 2
  · simp [hlen]
  · cases hlm : rt.hasLanguageModel with
    | false => simp [hlen]
    | true =>
      right
      refine ⟨by omega, rfl, ?_⟩
      simp only [hlen, if_false, if_true]
      cases hc : rt.create (creations tr) with
      | error e => simp
      | ok u =>
        right
        simp only [sessionPrompt]
        split <;> rename_i heq <;> simp only [Prod.mk.injEq] at heq <;> exact heq.2.symm

theorem summarizeContent_creations (rt : Runtime) (content title : Str) (tr : Trace) :
    creations (Background.summarizeContent rt content title tr).2 =
      creations tr + (if rt.hasLanguageModel then 1 else 0) := by
  rcases summarizeContent_trace rt content title tr with ⟨hlm, h⟩ | ⟨hlm, h | h⟩
  · rw [h, hlm]
    simp
  · rw [h, hlm, creations_append, creations_create]
    simp
  · rw [h, hlm, creations_append, creations_append, creations_create, creations_prompt]
    simp

theorem summarizeContent_onePromptEach (rt : Runtime) (content title : Str) (tr : Trace)
    (hinv : OnePromptEach tr) :
    OnePromptEach (Background.summarizeContent rt content title tr).2 := by
  rcases summarizeContent_trace rt content title tr with ⟨_, h⟩ | ⟨_, h | h⟩
  · rw [h]
    exact hinv
  · rw [h]
    exact onePromptEach_create tr hinv
  · rw [h]
    exact onePromptEach_create_prompt tr _ hinv

theorem findConnections_creations (rt : Runtime) (summaries : List Summary) (tr : Trace) :
    creations (Background.findConnections rt summaries tr).2 =
      creations tr + (if summaries.length < 2 then 0 else if rt.hasLanguageModel then 1 else 0) := by
  rcases findConnections_trace rt summaries tr with ⟨hc, h⟩ | ⟨hlen, hlm, h | h⟩
  · rw [h]
    rcases hc with hc | hc
    · simp [hc]
    · simp [hc]
  · have hlen2 : ¬ summaries.length < 2 := by omega
    rw [h, hlm, creations_append, creations_create]
    simp [hlen2]
  · have hlen2 : ¬ summaries.length < 2 := by omega
    rw [h, hlm, creations_append, creations_append, creations_create, creations_prompt]
    simp [hlen2]

theorem findConnections_onePromptEach (rt : Runtime) (summaries : List Summary) (tr : Trace)
    (hinv : OnePromptEach tr) :
    OnePromptEach (Background.findConnections rt summaries tr).2 := by
  rcases findConnections_trace rt summaries tr with ⟨_, h⟩ | ⟨_, _, h | h⟩
  · rw [h]
    exact hinv
  · rw [h]
    exact onePromptEach_create tr hinv
  · rw [h]
    exact onePromptEach_create_prompt tr _ hinv

theorem summarizeLoop_sessions (rt : Runtime) (tabs : List (Tab × Extraction))
    (summaries : List Summary) (tr : Trace) :
    creations (Background.summarizeLoop rt tabs summaries tr).2 =
        creations tr + (if rt.hasLanguageModel then (yielding tabs).length else 0) ∧
      (Background.summarizeLoop rt tabs summaries tr).1.length =
        summaries.length + (yielding tabs).length ∧
      (OnePromptEach tr → OnePromptEach (Background.summarizeLoop rt tabs summaries tr).2) := by
  induction tabs generalizing summaries tr with
  | nil => simp [Background.summarizeLoop, yielding]
  | cons p rest ih =>
    obtain ⟨tab, ex⟩ := p
    unfold Background.summarizeLoop
    by_cases hh : isHttp tab = true
    · cases ex with
      | page c =>
        simp only [hh, if_true]
        obtain ⟨h1, h2, h3⟩ := ih
          (summaries ++ [⟨tab.title, tab.url,
            (Background.summarizeContent rt c.content tab.title
              (tr ++ [Event.extract tab])).1⟩])
          (Background.summarizeContent rt c.content tab.title (tr ++ [Event.extract tab])).2
        have hy : yielding ((tab, Extraction.page c) :: rest) = (tab, c) :: yielding rest := by
          simp [yielding, List.filterMap_cons, hh]
        refine ⟨?_, ?_, ?_⟩
        · rw [h1, summarizeContent_creations, creations_append, creations_extract, hy]
          cases rt.hasLanguageModel <;> simp
          omega
        · rw [h2, hy]
          simp
          omega
        · intro hinv
          exact h3 (summarizeContent_onePromptEach _ _ _ _ (onePromptEach_extract _ _ hinv))
      | threw m =>
        simp only [hh, if_true]
        obtain ⟨h1, h2, h3⟩ := ih summaries (tr ++ [Event.extract tab])
        have hy : yielding ((tab, Extraction.threw m) :: rest) = yielding rest := by
          simp [yielding, List.filterMap_cons, hh]
        rw [hy]
        refine ⟨?_, h2, fun hinv => h3 (onePromptEach_extract _ _ hinv)⟩
        rw [h1, creations_append, creations_extract]
        rfl
      | missing =>
        simp only [hh, if_true]
        obtain ⟨h1, h2, h3⟩ := ih summaries (tr ++ [Event.extract tab])
        have hy : yielding ((tab, Extraction.missing) :: rest) = yielding rest := by
          simp [yielding, List.filterMap_cons, hh]
        rw [hy]
        refine ⟨?_, h2, fun hinv => h3 (onePromptEach_extract _ _ hinv)⟩
        rw [h1, creations_append, creations_extract]
        rfl
    · have hf : isHttp tab = false := by simpa using hh
      simp only [hf, Bool.false_eq_true, if_false]
      have hy : yielding ((tab, ex) :: rest) = yielding rest := by
        simp [yielding, List.filterMap_cons, hf]
      rw [hy]
      exact ih summaries tr

set_option maxRecDepth 20000 in
/-- **C12, where the code departs from it.** With two tabs that yield content and a language
model that answers, `handleSummarizeTabs` calls `create` three times: once in each
`summarizeContent` and once in `findConnections`. The two summarization prompts and the
connection prompt go to three different sessions, one prompt each. -/
theorem background_creates_three_sessions :
    (Background.handleSummarizeTabs steadyRuntime (.ok twoTabs)).2 =
      [Event.extract (httpTab 1), Event.create,
        Event.prompt 0 (summaryPrompt (lit "T") (lit "Solar power is getting cheaper.")),
        Event.extract (httpTab 2), Event.create,
        Event.prompt 1 (summaryPrompt (lit "T") (lit "Solar power is getting cheaper.")),
        Event.create,
        Event.prompt 2 (Background.connectionsPrompt
          [⟨lit "T", lit "https://t.example/",
              lit "1. Both articles cover solar power\nshort\n2. They disagree on the cost of it"⟩,
            ⟨lit "T", lit "https://t.example/",
              lit "1. Both articles cover solar power\nshort\n2. They disagree on the cost of it"⟩])] ∧
    creations (Background.handleSummarizeTabs steadyRuntime (.ok twoTabs)).2 = 3 ∧
    promptsOf 0 (Background.handleSummarizeTabs steadyRuntime (.ok twoTabs)).2 =
      [summaryPrompt (lit "T") (lit "Solar power is getting cheaper.")] ∧
    promptsOf 1 (Background.handleSummarizeTabs steadyRuntime (.ok twoTabs)).2 =
      [summaryPrompt (lit "T") (lit "Solar power is getting cheaper.")] ∧
    (promptsOf 2 (Background.handleSummarizeTabs steadyRuntime (.ok twoTabs)).2).length = 1 := by
  decide

/-- In general: during one run of `handleSummarizeTabs` with `ai.languageModel` present,
`create` is called once for each tab that yields content and once more when there are at
least two summaries; without `ai.languageModel` it is never called. Every session receives at
most one prompt. -/
theorem background_one_session_per_call (rt : Runtime) (tabs : List (Tab × Extraction)) :
    creations (Background.handleSummarizeTabs rt (.ok tabs)).2 =
      (if rt.hasLanguageModel then
        (yielding (tabs.take 5)).length + (if (yielding (tabs.take 5)).length < 2 then 0 else 1)
      else 0) ∧
    ∀ s, (promptsOf s (Background.handleSummarizeTabs rt (.ok tabs)).2).length ≤ 1 := by
  obtain ⟨h1, h2, h3⟩ := summarizeLoop_sessions rt (tabs.take 5) [] []
  unfold Background.handleSummarizeTabs
  simp only
  constructor
  · rw [findConnections_creations, h1, h2]
    cases rt.hasLanguageModel <;> simp [creations]
  · intro s
    exact (findConnections_onePromptEach rt _ _ (h3 onePromptEach_nil) s).1

theorem prompt_mem_summarizeContent (rt : Runtime) (content title : Str) (tr : Trace)
    (s : Nat) (text : Str)
    (h : Event.prompt s text ∈ (Background.summarizeContent rt content title tr).2) :
    Event.prompt s text ∈ tr ∨ text = summaryPrompt title content := by
  rcases summarizeContent_trace rt content title tr with ⟨_, ht⟩ | ⟨_, ht | ht⟩
  · rw [ht] at h
    exact Or.inl h
  · rw [ht] at h
    simp only [List.mem_append, List.mem_singleton, reduceCtorEq, or_false] at h
    exact Or.inl h
  · rw [ht] at h
    simp only [List.mem_append, List.mem_singleton, reduceCtorEq, or_false,
      Event.prompt.injEq] at h
    rcases h with h | h
    · exact Or.inl h
    · exact Or.inr h.2

theorem prompt_mem_findConnections (rt : Runtime) (summaries : List Summary) (tr : Trace)
    (s : Nat) (text : Str)
    (h : Event.prompt s text ∈ (Background.findConnections rt summaries tr).2) :
    Event.prompt s text ∈ tr ∨ text = Background.connectionsPrompt summaries := by
  rcases findConnections_trace rt summaries tr with ⟨_, ht⟩ | ⟨_, _, ht | ht⟩
  · rw [ht] at h
    exact Or.inl h
  · rw [ht] at h
    simp only [List.mem_append, List.mem_singleton, reduceCtorEq, or_false] at h
    exact Or.inl h
  · rw [ht] at h
    simp only [List.mem_append, List.mem_singleton, reduceCtorEq, or_false,
      Event.prompt.injEq] at h
    rcases h with h | h
    · exact Or.inl h
    · exact Or.inr h.2

theorem prompt_mem_summarizeLoop (rt : Runtime) (tabs : List (Tab × Extraction))
    (summaries : List Summary) (tr : Trace) (s : Nat) (text : Str)
    (h : Event.prompt s text ∈ (Background.summarizeLoop rt tabs summaries tr).2) :
    Event.prompt s text ∈ tr ∨
      ∃ p ∈ yielding tabs, text = summaryPrompt p.1.title p.2.content := by
  induction tabs generalizing summaries tr with
  | nil => exact Or.inl (by simpa [Background.summarizeLoop] using h)
  | cons q rest ih =>
    obtain ⟨tab, ex⟩ := q
    unfold Background.summarizeLoop at h
    by_cases hh : isHttp tab = true
    · cases ex with
      | page c =>
        simp only [hh, if_true] at h
        have hy : yielding ((tab, Extraction.page c) :: rest) = (tab, c) :: yielding rest := by
          simp [yielding, List.filterMap_cons, hh]
        rw [hy]
        rcases ih _ _ h with h1 | ⟨p, hp, ht⟩
        · rcases prompt_mem_summarizeContent _ _ _ _ _ _ h1 with h2 | h2
          · simp only [List.mem_append, List.mem_singleton, reduceCtorEq, or_false] at h2
            exact Or.inl h2
          · exact Or.inr ⟨(tab, c), List.mem_cons_self _ _, h2⟩
        · exact Or.inr ⟨p, List.mem_cons_of_mem _ hp, ht⟩
      | threw m =>
        simp only [hh, if_true] at h
        have hy : yielding ((tab, Extraction.threw m) :: rest) = yielding rest := by
          simp [yielding, List.filterMap_cons, hh]
        rw [hy]
        rcases ih _ _ h with h1 | h1
        · simp only [List.mem_append, List.mem_singleton, reduceCtorEq, or_false] at h1
          exact Or.inl h1
        · exact Or.inr h1
      | missing =>
        simp only [hh, if_true] at h
        have hy : yielding ((tab, Extraction.missing) :: rest) = yielding rest := by
          simp [yielding, List.filterMap_cons, hh]
        rw [hy]
        rcases ih _ _ h with h1 | h1
        · simp only [List.mem_append, List.mem_singleton, reduceCtorEq, or_false] at h1
          exact Or.inl h1
        · exact Or.inr h1
    · have hf : isHttp tab = false := by simpa using hh
      simp only [hf, Bool.false_eq_true, if_false] at h
      have hy : yielding ((tab, ex) :: rest) = yielding rest := by
        simp [yielding, List.filterMap_cons, hf]
      rw [hy]
      exact ih _ _ h

/-- The prompts sent during one run of `handleSummarizeTabs`: each is the summarization prompt
of a tab that yields content, or the connection-finding prompt over the summaries of the
response. -/
theorem background_prompts_known (rt : Runtime) (tabs : List (Tab × Extraction)) (s : Nat)
    (text : Str)
    (h : Event.prompt s text ∈ (Background.handleSummarizeTabs rt (.ok tabs)).2) :
    (∃ p ∈ yielding (tabs.take 5), text = summaryPrompt p.1.title p.2.content) ∨
      text = Background.connectionsPrompt
        (Background.summarizeLoop rt (tabs.take 5) [] []).1 := by
  unfold Background.handleSummarizeTabs at h
  simp only at h
  rcases prompt_mem_findConnections _ _ _ _ _ h with h1 | h1
  · rcases prompt_mem_summarizeLoop _ _ _ _ _ _ h1 with h2 | h2
    · simp at h2
    · exact Or.inl h2
  · exact Or.inr h1

/-! ## `handleSummarizeTabs` when no session can be created -/

theorem createAISession_fails (rt : Runtime)
    (hfail : rt.hasLanguageModel = false ∨ ∀ k, ∃ e, rt.create k = .error e) (tr : Trace) :
    (Background.createAISession rt tr).1 = .error (creationError rt (creations tr)) ∧
    creations (Background.createAISession rt tr).2 =
      creations tr + (if rt.hasLanguageModel then 1 else 0) := by
  unfold Background.createAISession createSession creationError
  cases hlm : rt.hasLanguageModel with
  | false => simp
  | true =>
    rcases hfail with h | h
    · rw [hlm] at h
      exact absurd h (by decide)
    · obtain ⟨e, he⟩ := h (creations tr)
      rw [he]
      simp [creations_append, creations_create]

theorem creationError_of_absent (rt : Runtime) (h : rt.hasLanguageModel = false) (i j : Nat) :
    creationError rt i = creationError rt j := by
  simp [creationError, h]

theorem summarizeContent_of_fails (rt : Runtime)
    (hfail : rt.hasLanguageModel = false ∨ ∀ k, ∃ e, rt.create k = .error e)
    (content title : Str) (tr : Trace) :
    (Background.summarizeContent rt content title tr).1 =
        lit "Summary unavailable - " ++ creationError rt (creations tr) ∧
    creations (Background.summarizeContent rt content title tr).2 =
      creations tr + (if rt.hasLanguageModel then 1 else 0) := by
  obtain ⟨h1, h2⟩ := createAISession_fails rt hfail tr
  unfold Background.summarizeContent
  cases hc : Background.createAISession rt tr with
  | mk r tr1 =>
    rw [hc] at h1 h2
    simp only at h1 h2
    subst h1
    exact ⟨rfl, h2⟩

theorem findConnections_of_fails (rt : Runtime)
    (hfail : rt.hasLanguageModel = false ∨ ∀ k, ∃ e, rt.create k = .error e)
    (summaries : List Summary) (tr : Trace) :
    (Background.findConnections rt summaries tr).1 =
      if summaries.length < 2 then [lit "Not enough tabs to find connections"]
      else [lit "Unable to find connections: " ++ creationError rt (creations tr)] := by
  obtain ⟨h1, _⟩ := createAISession_fails rt hfail tr
  unfold Background.findConnections
  by_cases hlen : summaries.length < 2
  · simp [hlen]
  · rw [if_neg hlen, if_neg hlen]
    cases hc : Background.createAISession rt tr with
    | mk r tr1 =>
      rw [hc] at h1
      simp only at h1
      subst h1
      rfl

theorem summarizeLoop_of_fails (rt : Runtime)
    (hfail : rt.hasLanguageModel = false ∨ ∀ k, ∃ e, rt.create k = .error e)
    (tabs : List (Tab × Extraction)) (summaries : List Summary) (tr : Trace) (n : Nat)
    (hn : rt.hasLanguageModel = true → n = creations tr) :
    (Background.summarizeLoop rt tabs summaries tr).1 =
      summaries ++ ((yielding tabs).enumFrom n).map fun p =>
        ⟨p.2.1.title, p.2.1.url, lit "Summary unavailable - " ++ creationError rt p.1⟩ := by
  induction tabs generalizing summaries tr n with
  | nil => simp [Background.summarizeLoop, yielding]
  | cons q rest ih =>
    obtain ⟨tab, ex⟩ := q
    unfold Background.summarizeLoop
    by_cases hh : isHttp tab = true
    · cases ex with
      | page c =>
        simp only [hh, if_true]
        obtain ⟨h1, h2⟩ := summarizeContent_of_fails rt hfail c.content tab.title
          (tr ++ [Event.extract tab])
        rw [creations_append, creations_extract, Nat.add_zero] at h1 h2
        have hidx : creationError rt (creations tr) = creationError rt n := by
          cases hlm : rt.hasLanguageModel with
          | false => exact creationError_of_absent rt hlm _ _
          | true => rw [hn hlm]
        have hy : yielding ((tab, Extraction.page c) :: rest) = (tab, c) :: yielding rest := by
          simp [yielding, List.filterMap_cons, hh]
        rw [ih _ _ (n + 1) (by intro hlm; rw [h2, hlm, hn hlm]; simp), h1, hidx, hy]
        simp [List.enumFrom_cons]
      | threw m =>
        simp only [hh, if_true]
        have hy : yielding ((tab, Extraction.threw m) :: rest) = yielding rest := by
          simp [yielding, List.filterMap_cons, hh]
        rw [ih _ _ n (by intro hlm; rw [creations_append, creations_extract, hn hlm]; rfl), hy]
      | missing =>
        simp only [hh, if_true]
        have hy : yielding ((tab, Extraction.missing) :: rest) = yielding rest := by
          simp [yielding, List.filterMap_cons, hh]
        rw [ih _ _ n (by intro hlm; rw [creations_append, creations_extract, hn hlm]; rfl), hy]
    · have hf : isHttp tab = false := by simpa using hh
      simp only [hf, Bool.false_eq_true, if_false]
      have hy : yielding ((tab, ex) :: rest) = yielding rest := by
        simp [yielding, List.filterMap_cons, hf]
      rw [ih _ _ n hn, hy]

/-- **C13, where the code departs from it.** Two tabs yield content. Without
`ai.languageModel`, and also when `create` rejects, `handleSummarizeTabs` answers
`success: true` with one summary per tab, "Summary unavailable - " and the message, and one
connection, "Unable to find connections: " and the message. -/
theorem background_creation_failure_is_success :
    yielding (twoTabs.take 5) ≠ [] ∧
    (Background.createAISession absentRuntime []).1 =
      .error (lit "AI languageModel not available in service worker") ∧
    (Background.handleSummarizeTabs absentRuntime (.ok twoTabs)).1 =
      .success
        [⟨lit "T", lit "https://t.example/",
            lit "Summary unavailable - AI languageModel not available in service worker"⟩,
          ⟨lit "T", lit "https://t.example/",
            lit "Summary unavailable - AI languageModel not available in service worker"⟩]
        [lit "Unable to find connections: AI languageModel not available in service worker"] ∧
    (Background.createAISession rejectingRuntime []).1 =
      .error (lit "The model is not downloaded") ∧
    (Background.handleSummarizeTabs rejectingRuntime (.ok twoTabs)).1 =
      .success
        [⟨lit "T", lit "https://t.example/",
            lit "Summary unavailable - The model is not downloaded"⟩,
          ⟨lit "T", lit "https://t.example/",
            lit "Summary unavailable - The model is not downloaded"⟩]
        [lit "Unable to find connections: The model is not downloaded"] := by
  decide

/-- In general: when no session can be created (`ai.languageModel` is absent or `create`
rejects), `handleSummarizeTabs` answers `success: true`; `summaries` has one entry per tab
that yields content, in order, with the title and URL of the tab and the text
"Summary unavailable - " followed by the message of that tab's creation failure;
`connections` is "Not enough tabs to find connections" with fewer than two summaries and
"Unable to find connections: " followed by the message of the last creation failure
otherwise. -/
theorem background_creation_failure_degrades (rt : Runtime) (tabs : List (Tab × Extraction))
    (hfail : rt.hasLanguageModel = false ∨ ∀ k, ∃ e, rt.create k = .error e) :
    (Background.handleSummarizeTabs rt (.ok tabs)).1 =
      .success
        ((yielding (tabs.take 5)).enum.map fun p =>
          ⟨p.2.1.title, p.2.1.url, lit "Summary unavailable - " ++ creationError rt p.1⟩)
        (if (yielding (tabs.take 5)).length < 2 then
          [lit "Not enough tabs to find connections"]
        else
          [lit "Unable to find connections: " ++
            creationError rt (yielding (tabs.take 5)).length]) := by
  have hloop := summarizeLoop_of_fails rt hfail (tabs.take 5) [] [] 0 (fun _ => rfl)
  rw [List.nil_append] at hloop
  obtain ⟨hcount, _, _⟩ := summarizeLoop_sessions rt (tabs.take 5) [] []
  have hidx : creationError rt
      (creations (Background.summarizeLoop rt (tabs.take 5) [] []).2) =
      creationError rt (yielding (tabs.take 5)).length := by
    cases hlm : rt.hasLanguageModel with
    | false => exact creationError_of_absent rt hlm _ _
    | true =>
      rw [hcount, hlm]
      simp [creations]
  unfold Background.handleSummarizeTabs
  simp only
  rw [findConnections_of_fails rt hfail, hidx, hloop]
  simp [List.enum]

theorem background_creation_failure_degrades_witness :
    (rejectingRuntime.hasLanguageModel = false ∨
      ∀ k, ∃ e, rejectingRuntime.create k = .error e) ∧
    (Background.handleSummarizeTabs rejectingRuntime (.ok twoTabs)).1 =
      .success
        ((yielding (twoTabs.take 5)).enum.map fun p =>
          ⟨p.2.1.title, p.2.1.url,
            lit "Summary unavailable - " ++ creationError rejectingRuntime p.1⟩)
        (if (yielding (twoTabs.take 5)).length < 2 then
          [lit "Not enough tabs to find connections"]
        else
          [lit "Unable to find connections: " ++
            creationError rejectingRuntime (yielding (twoTabs.take 5)).length]) :=
  ⟨Or.inr fun _ => ⟨_, rfl⟩,
    background_creation_failure_degrades rejectingRuntime twoTabs (Or.inr fun _ => ⟨_, rfl⟩)⟩

/-! ## The entries returned by the parser of `sidepanel.js` -/

theorem head_dropWhile_isWhiteSpace (s : Str) (c : Nat)
    (h : (s.dropWhile isWhiteSpace).head? = some c) : isWhiteSpace c = false := by
  have := List.head?_dropWhile_not isWhiteSpace s
  rw [h] at this
  exact this

theorem trimEnd_append (s : Str) : ∃ t, s = trimEnd s ++ t := by
  have hsuf : s.reverse.dropWhile isWhiteSpace <:+ s.reverse := List.dropWhile_suffix _
  obtain ⟨t, ht⟩ := hsuf
  refine ⟨t.reverse, ?_⟩
  have := congrArg List.reverse ht
  simp only [List.reverse_append, List.reverse_reverse] at this
  exact this.symm

theorem trim_head (s : Str) (c : Nat) (h : (trim s).head? = some c) :
    isWhiteSpace c = false := by
  unfold trim at h
  obtain ⟨t, ht⟩ := trimEnd_append (trimStart s)
  cases hte : trimEnd (trimStart s) with
  | nil => simp [hte] at h
  | cons d r =>
    rw [hte] at h ht
    simp only [List.head?_cons, Option.some.injEq] at h
    subst h
    apply head_dropWhile_isWhiteSpace s
    show (trimStart s).head? = _
    rw [ht]
    rfl

theorem trim_getLast (s : Str) (c : Nat) (h : (trim s).getLast? = some c) :
    isWhiteSpace c = false := by
  unfold trim trimEnd at h
  rw [List.getLast?_reverse] at h
  exact head_dropWhile_isWhiteSpace _ c h

/-- Every entry the parser of `sidepanel.js` returns starts and ends with a character that is
not whitespace, when it has any character. -/
theorem sidepanel_parseConnections_trimmed (result : Str) :
    ∀ entry ∈ SidePanel.parseConnections result,
      (∀ c, entry.head? = some c → isWhiteSpace c = false) ∧
      (∀ c, entry.getLast? = some c → isWhiteSpace c = false) := by
  intro entry hmem
  unfold SidePanel.parseConnections at hmem
  simp only at hmem
  split at hmem
  · have hmap := List.mem_of_mem_take hmem
    obtain ⟨line, _, rfl⟩ := List.mem_map.mp hmap
    exact ⟨trim_head _, trim_getLast _⟩
  · rw [List.mem_singleton] at hmem
    subst hmem
    constructor
    · intro c hc
      have : c = 0x41 := by
        have h2 : relatedTopics.head? = some 0x41 := by decide
        rw [h2] at hc
        exact (Option.some.inj hc).symm
      subst this
      decide
    · intro c hc
      have : c = 0x73 := by
        have h2 : relatedTopics.getLast? = some 0x73 := by decide
        rw [h2] at hc
        exact (Option.some.inj hc).symm
      subst this
      decide

/-- **C14, where the code departs from it.** A line of twenty digits followed by `:` has 21
characters, so the filter keeps it; the whole line is an enumeration marker, so the entry is
the empty string. The same happens inside a longer output. -/
theorem sidepanel_parseConnections_empty_entry :
    (trim (lit "12345678901234567890:")).length = 21 ∧
    SidePanel.parseConnections (lit "12345678901234567890:") = [[]] ∧
    SidePanel.parseConnections
        (lit "1. Both articles cover solar power\n100000000000000000000.\n2. They disagree on the cost of it") =
      [lit "Both articles cover solar power", [], lit "They disagree on the cost of it"] ∧
    ¬ (∀ entry ∈ SidePanel.parseConnections (lit "12345678901234567890:"), entry ≠ []) := by
  decide

end ContextFlow
